import Mathlib

/-!
Verification of the localization-catalog core of the Rosetta translator
(`src/xcstrings.rs`, `src/key_mappings.rs`, `src/error.rs`, `src/lib.rs`).

The Rust `HashMap<String, _>` fields are embedded as association lists
`List (String × _)`; `HashMap` key-uniqueness is stated, where a claim
needs it, as `Nodup` of the key projection.  All operations are translated
directly from the Rust source; machine strings are Lean `String`s.
-/

namespace Rosetta

/-- Association-list lookup, embedding `HashMap::get` / `contains_key`. -/
def listGet (k : String) : List (String × α) → Option α
  | [] => none
  | (k', v) :: rest => if k' = k then some v else listGet k rest

/-- Association-list insert, embedding `HashMap::insert`: replaces the
binding for `k` if present, otherwise appends a new binding. -/
def listInsert (k : String) (v : α) : List (String × α) → List (String × α)
  | [] => [(k, v)]
  | (k', v') :: rest =>
    if k' = k then (k, v) :: rest else (k', v') :: listInsert k v rest

/-- Association-list in-place update, embedding mutation through
`HashMap::get_mut`. -/
def listModify (k : String) (f : α → α) : List (String × α) → List (String × α)
  | [] => []
  | (k', v) :: rest =>
    if k' = k then (k', f v) :: rest else (k', v) :: listModify k f rest

/-- Rust `str::trim`: strip leading and trailing whitespace (embedded over
the character list so the kernel can evaluate it). -/
def strTrim (s : String) : String :=
  ⟨((s.data.dropWhile Char.isWhitespace).reverse.dropWhile Char.isWhitespace).reverse⟩

/-- Rust `str::is_empty`. -/
def strIsEmpty (s : String) : Bool := s.data.isEmpty

/-- Rust `str::to_lowercase` (ASCII-level model). -/
def strToLower (s : String) : String := ⟨s.data.map Char.toLower⟩

/-- Rust `str::starts_with` with a string pattern. -/
def strStartsWith (s pat : String) : Bool := pat.data.isPrefixOf s.data

/-- `TranslationMode` from `src/lib.rs`. -/
inductive TranslationMode where
  | Supplement
  | Fresh
deriving DecidableEq

/-- The error variants of `TranslatorError` (`src/error.rs`) reachable from
the document model. -/
inductive TranslatorError where
  | TranslationFailed (msg : String)
  | FileFormatError (msg : String)
deriving DecidableEq

/-- `StringUnit` from `src/xcstrings.rs`. -/
structure StringUnit where
  state : String
  value : String
deriving DecidableEq

/-- `Localization` from `src/xcstrings.rs`. -/
structure Localization where
  string_unit : Option StringUnit
  should_translate : Option Bool
deriving DecidableEq

/-- `LocalizationEntry` from `src/xcstrings.rs`. -/
structure LocalizationEntry where
  comment : Option String
  should_translate : Option Bool
  localizations : List (String × Localization)
deriving DecidableEq

/-- `XCStringsData` from `src/xcstrings.rs`. -/
structure XCStringsData where
  source_language : String
  version : String
  strings : List (String × LocalizationEntry)
deriving DecidableEq

/-- `XCStringsFile::is_marked_no_translate_globally`. -/
def is_marked_no_translate_globally (entry : LocalizationEntry) : Bool :=
  if entry.should_translate = some false then true
  else entry.localizations.any (fun p => p.2.should_translate = some false)

/-- The per-key decision of the loop body of
`XCStringsFile::get_keys_needing_translation`: `true` exactly when the loop
pushes the key (each `continue` is a `false` branch). -/
def keySelected (target_language : String) (mode : TranslationMode)
    (key : String) (entry : LocalizationEntry) : Bool :=
  if strIsEmpty (strTrim key) then false
  else if entry.should_translate = some false then false
  else if is_marked_no_translate_globally entry then false
  else
    match mode with
    | .Supplement =>
      decide (listGet target_language entry.localizations = none) ||
        (((listGet target_language entry.localizations).bind
            (fun loc => loc.string_unit)).map
          (fun unit => strIsEmpty unit.value)).getD true
    | .Fresh => true

/-- `XCStringsFile::get_keys_needing_translation`: iterate over `strings`
and collect the keys the loop body selects. -/
def get_keys_needing_translation (data : XCStringsData)
    (target_language : String) (mode : TranslationMode) : List String :=
  data.strings.filterMap
    (fun p => if keySelected target_language mode p.1 p.2 then some p.1 else none)

/-- `XCStringsFile::add_translation`. -/
def add_translation (data : XCStringsData) (key target_language translation : String) :
    Except TranslatorError XCStringsData :=
  match listGet key data.strings with
  | none => .error (.TranslationFailed ("Key not found: " ++ key))
  | some entry =>
    let locs :=
      if (listGet target_language entry.localizations).isSome then
        entry.localizations
      else
        listInsert target_language ⟨none, none⟩ entry.localizations
    let locs2 := listModify target_language
      (fun loc => { loc with string_unit := some ⟨"translated", translation⟩ }) locs
    .ok { data with
            strings := listInsert key { entry with localizations := locs2 } data.strings }

/-- `XCStringsFile::mark_as_no_translate`. -/
def mark_as_no_translate (data : XCStringsData) (key : String) :
    Except TranslatorError XCStringsData :=
  match listGet key data.strings with
  | none => .error (.TranslationFailed ("Key not found: " ++ key))
  | some entry =>
    .ok { data with
            strings := listInsert key { entry with should_translate := some false } data.strings }

/-- Character-list substring test; `strContains` below embeds Rust
`str::contains` with a string pattern. -/
def charsContains (pat : List Char) : List Char → Bool
  | [] => pat.isEmpty
  | c :: rest => pat.isPrefixOf (c :: rest) || charsContains pat rest

/-- Rust `str::contains` with a string pattern. -/
def strContains (s pat : String) : Bool := charsContains pat.data s.data

/-- The exact-match table `KEY_MEANINGS` from `src/key_mappings.rs`. -/
def KEY_MEANINGS : List (String × String) :=
  [("CFBundleDisplayName", "应用在主屏幕显示的名称"),
   ("CFBundleName", "应用包名称"),
   ("CFBundleShortVersionString", "应用版本号"),
   ("CFBundleVersion", "应用构建版本号"),
   ("NSCameraUsageDescription", "相机权限使用说明"),
   ("NSPhotoLibraryUsageDescription", "照片库访问权限说明"),
   ("NSPhotoLibraryAddUsageDescription", "添加照片到相册权限说明"),
   ("NSMicrophoneUsageDescription", "麦克风权限使用说明"),
   ("NSLocationWhenInUseUsageDescription", "使用期间位置权限说明"),
   ("NSLocationAlwaysUsageDescription", "始终位置权限说明"),
   ("NSLocationAlwaysAndWhenInUseUsageDescription", "位置权限使用说明"),
   ("NSContactsUsageDescription", "通讯录访问权限说明"),
   ("NSCalendarsUsageDescription", "日历访问权限说明"),
   ("NSRemindersUsageDescription", "提醒事项访问权限说明"),
   ("NSMotionUsageDescription", "运动与健身权限说明"),
   ("NSHealthShareUsageDescription", "健康数据读取权限说明"),
   ("NSHealthUpdateUsageDescription", "健康数据写入权限说明"),
   ("NSBluetoothPeripheralUsageDescription", "蓝牙外设权限说明"),
   ("NSBluetoothAlwaysUsageDescription", "蓝牙权限使用说明"),
   ("NSAppleMusicUsageDescription", "Apple Music权限说明"),
   ("NSSpeechRecognitionUsageDescription", "语音识别权限说明"),
   ("NSVideoSubscriberAccountUsageDescription", "视频订阅账户权限说明"),
   ("NSNetworkVolumesUsageDescription", "网络卷访问权限说明"),
   ("NSDesktopFolderUsageDescription", "桌面文件夹访问权限说明"),
   ("NSDocumentsFolderUsageDescription", "文档文件夹访问权限说明"),
   ("NSDownloadsFolderUsageDescription", "下载文件夹访问权限说明"),
   ("NSRemovableVolumesUsageDescription", "可移动卷访问权限说明"),
   ("CFBundleDisplayName_widget", "小组件显示名称"),
   ("widget_description", "小组件描述"),
   ("widget_configuration_intent_response", "小组件配置响应"),
   ("APP_STORE_DESCRIPTION", "App Store应用描述"),
   ("APP_STORE_KEYWORDS", "App Store关键词"),
   ("APP_STORE_RELEASE_NOTES", "App Store更新说明")]

/-- `infer_key_meaning` from `src/key_mappings.rs`. -/
def infer_key_meaning (key : String) : Option String :=
  match listGet key KEY_MEANINGS with
  | some meaning => some meaning
  | none =>
    let key_lower := strToLower key
    if strContains key_lower "usagedescription" then some "隐私权限使用说明"
    else if strStartsWith key_lower "cfbundle" then some "应用包配置信息"
    else if strContains key_lower "widget" then some "小组件相关配置"
    else if strContains key_lower "config" || strContains key_lower "setting" then
      some "配置设置"
    else if strContains key_lower "error" || strContains key_lower "fail" then
      some "错误信息"
    else if strContains key_lower "success" || strContains key_lower "complete" then
      some "成功信息"
    else if strContains key_lower "button" || strContains key_lower "btn" then
      some "按钮标签"
    else if strContains key_lower "alert" || strContains key_lower "dialog"
        || strContains key_lower "message" then
      some "提示信息"
    else if strContains key_lower "nav" || strContains key_lower "tab"
        || strContains key_lower "menu" then
      some "导航菜单"
    else none

/-- `categorize_usage` from `src/key_mappings.rs` (the `meaning` argument is
accepted but never read, as in the source). -/
def categorize_usage (key : String) (meaning : Option String) : Option String :=
  let key_lower := strToLower key
  if strContains key_lower "usagedescription" || strStartsWith key_lower "ns" then
    some "system_permission"
  else if strStartsWith key_lower "cfbundle" then some "app_metadata"
  else if strContains key_lower "widget" then some "widget_ui"
  else if strContains key_lower "button" || strContains key_lower "label" then
    some "ui_element"
  else if strContains key_lower "error" || strContains key_lower "alert" then
    some "user_message"
  else some "general"

/-- `TranslationContext` from `src/xcstrings.rs`; `existing_translations`
(a `HashMap` in Rust) is embedded as an association list in iteration order. -/
structure TranslationContext where
  key : String
  key_meaning : Option String
  comment : Option String
  source_text : String
  existing_translations : List (String × String)
  usage_category : Option String
deriving DecidableEq

/-- `XCStringsFile::get_translation_context`. -/
def get_translation_context (data : XCStringsData) (key source_language : String) :
    Option TranslationContext :=
  match listGet key data.strings with
  | none => none
  | some entry =>
    let source_text :=
      ((((listGet source_language entry.localizations).bind
            (fun loc => loc.string_unit)).map
          (fun unit => unit.value)).filter
        (fun v => !strIsEmpty (strTrim v))).getD key
    let existing_translations := entry.localizations.filterMap (fun p =>
      if p.1 ≠ source_language then
        match p.2.string_unit with
        | some string_unit =>
          if !strIsEmpty (strTrim string_unit.value) then
            some (p.1, string_unit.value)
          else none
        | none => none
      else none)
    let key_meaning := infer_key_meaning key
    let usage_category := categorize_usage key key_meaning
    some { key := key
           key_meaning := key_meaning
           comment := entry.comment
           source_text := source_text
           existing_translations := existing_translations
           usage_category := usage_category }

/-! ### JSON-value model of load/save

`XCStringsFile::load` and `::save` delegate the JSON (de)serialization to
`serde_json` driven by the derive attributes on the structs in
`src/xcstrings.rs` (`rename`, `skip_serializing_if = "Option::is_none"`,
`skip_serializing_if = "HashMap::is_empty", default`).  The round-trip claim
is about semantic JSON equality, so the (de)serialization is modelled at the
JSON-value level: `Json` is a JSON value, the `toJson` functions follow the
derive attributes field by field, and the `parse*` functions model the
derived deserializers (absent `Option` fields become `none`, the `default`
attribute makes the `localizations` map optional, everything else is
required and type-checked).
-/

/-- JSON values (the fragment the catalog format uses). -/
inductive Json where
  | str (s : String)
  | bool (b : Bool)
  | obj (fields : List (String × Json))

/-- Serialization of `StringUnit` (both fields unconditional). -/
def StringUnit.toJson (u : StringUnit) : Json :=
  .obj [("state", .str u.state), ("value", .str u.value)]

/-- Serialization of `Localization`: `stringUnit` and `shouldTranslate`
are renamed and skipped when `none`. -/
def Localization.toJson (l : Localization) : Json :=
  .obj ((match l.string_unit with
         | some u => [("stringUnit", StringUnit.toJson u)]
         | none => []) ++
        (match l.should_translate with
         | some b => [("shouldTranslate", .bool b)]
         | none => []))

/-- Serialization of `LocalizationEntry`: `comment` and `shouldTranslate`
are skipped when `none`, `localizations` is skipped when empty. -/
def LocalizationEntry.toJson (e : LocalizationEntry) : Json :=
  .obj ((match e.comment with
         | some c => [("comment", .str c)]
         | none => []) ++
        (match e.should_translate with
         | some b => [("shouldTranslate", .bool b)]
         | none => []) ++
        (if e.localizations.isEmpty then []
         else [("localizations",
                .obj (e.localizations.map (fun p => (p.1, Localization.toJson p.2))))]))

/-- Serialization of `XCStringsData` (all three fields unconditional,
`sourceLanguage` renamed). -/
def XCStringsData.toJson (d : XCStringsData) : Json :=
  .obj [("sourceLanguage", .str d.source_language),
        ("version", .str d.version),
        ("strings", .obj (d.strings.map (fun p => (p.1, LocalizationEntry.toJson p.2))))]

/-- Deserialization of an optional `bool` field. -/
def parseOptBool (fields : List (String × Json)) (name : String) :
    Except TranslatorError (Option Bool) :=
  match listGet name fields with
  | none => .ok none
  | some (.bool b) => .ok (some b)
  | some _ => .error (.FileFormatError "Invalid JSON")

/-- Deserialization of `StringUnit` (both fields required strings). -/
def parseStringUnit : Json → Except TranslatorError StringUnit
  | .obj fields =>
    match listGet "state" fields, listGet "value" fields with
    | some (.str state), some (.str value) => .ok ⟨state, value⟩
    | _, _ => .error (.FileFormatError "Invalid JSON")
  | _ => .error (.FileFormatError "Invalid JSON")

/-- Deserialization of `Localization` (both fields optional). -/
def parseLocalization : Json → Except TranslatorError Localization
  | .obj fields => do
    let string_unit ←
      match listGet "stringUnit" fields with
      | none => .ok none
      | some j => (parseStringUnit j).map some
    let should_translate ← parseOptBool fields "shouldTranslate"
    .ok ⟨string_unit, should_translate⟩
  | _ => .error (.FileFormatError "Invalid JSON")

/-- Deserialization of a JSON object's fields into an association map of
`Localization`s. -/
def parseLocMap : List (String × Json) → Except TranslatorError (List (String × Localization))
  | [] => .ok []
  | (k, j) :: rest => do
    let l ← parseLocalization j
    let r ← parseLocMap rest
    .ok ((k, l) :: r)

/-- Deserialization of `LocalizationEntry`; `localizations` falls back to the
empty map when absent (the `default` attribute). -/
def parseEntry : Json → Except TranslatorError LocalizationEntry
  | .obj fields => do
    let comment ←
      match listGet "comment" fields with
      | none => Except.ok none
      | some (.str c) => Except.ok (some c)
      | some _ => Except.error (.FileFormatError "Invalid JSON")
    let should_translate ← parseOptBool fields "shouldTranslate"
    let localizations ←
      match listGet "localizations" fields with
      | none => Except.ok []
      | some (.obj locFields) => parseLocMap locFields
      | some _ => Except.error (.FileFormatError "Invalid JSON")
    .ok ⟨comment, should_translate, localizations⟩
  | _ => .error (.FileFormatError "Invalid JSON")

/-- Deserialization of a JSON object's fields into an association map of
`LocalizationEntry`s. -/
def parseStringsMap : List (String × Json) →
    Except TranslatorError (List (String × LocalizationEntry))
  | [] => .ok []
  | (k, j) :: rest => do
    let e ← parseEntry j
    let r ← parseStringsMap rest
    .ok ((k, e) :: r)

/-- Deserialization of `XCStringsData` (all three fields required). -/
def parseXCStringsData : Json → Except TranslatorError XCStringsData
  | .obj fields => do
    let source_language ←
      match listGet "sourceLanguage" fields with
      | some (.str s) => Except.ok s
      | _ => Except.error (.FileFormatError "Invalid JSON")
    let version ←
      match listGet "version" fields with
      | some (.str s) => Except.ok s
      | _ => Except.error (.FileFormatError "Invalid JSON")
    let strings ←
      match listGet "strings" fields with
      | some (.obj stringFields) => parseStringsMap stringFields
      | _ => Except.error (.FileFormatError "Invalid JSON")
    .ok ⟨source_language, version, strings⟩
  | _ => .error (.FileFormatError "Invalid JSON")

/-! ### Association-list lemmas -/

theorem listGet_listInsert_self (k : String) (v : α) (l : List (String × α)) :
    listGet k (listInsert k v l) = some v := by
  induction l with
  | nil => simp [listInsert, listGet]
  | cons p rest ih =>
    obtain ⟨k', v'⟩ := p
    by_cases h : k' = k
    · simp [listInsert, listGet, h]
    · simp [listInsert, listGet, h, ih]

theorem listGet_listInsert_ne (k k' : String) (h : k' ≠ k) (v : α) (l : List (String × α)) :
    listGet k' (listInsert k v l) = listGet k' l := by
  induction l with
  | nil => simp [listInsert, listGet, Ne.symm h]
  | cons p rest ih =>
    obtain ⟨k₀, v₀⟩ := p
    by_cases h₀ : k₀ = k
    · subst h₀
      simp [listInsert, listGet, Ne.symm h]
    · simp [listInsert, listGet, h₀, ih]

theorem listGet_listModify_self (k : String) (f : α → α) (l : List (String × α)) :
    listGet k (listModify k f l) = (listGet k l).map f := by
  induction l with
  | nil => simp [listModify, listGet]
  | cons p rest ih =>
    obtain ⟨k', v'⟩ := p
    by_cases h : k' = k
    · simp [listModify, listGet, h]
    · simp [listModify, listGet, h, ih]

theorem listGet_listModify_ne (k k' : String) (h : k' ≠ k) (f : α → α)
    (l : List (String × α)) :
    listGet k' (listModify k f l) = listGet k' l := by
  induction l with
  | nil => simp [listModify]
  | cons p rest ih =>
    obtain ⟨k₀, v₀⟩ := p
    by_cases h₀ : k₀ = k
    · subst h₀
      simp [listModify, listGet, Ne.symm h]
    · simp [listModify, listGet, h₀, ih]

theorem listInsert_listInsert (k : String) (v w : α) (l : List (String × α)) :
    listInsert k v (listInsert k w l) = listInsert k v l := by
  induction l with
  | nil => simp [listInsert]
  | cons p rest ih =>
    obtain ⟨k₀, v₀⟩ := p
    by_cases h₀ : k₀ = k
    · simp [listInsert, h₀]
    · simp [listInsert, h₀, ih]

theorem listModify_listModify (k : String) (f : α → α) (hf : ∀ x, f (f x) = f x)
    (l : List (String × α)) :
    listModify k f (listModify k f l) = listModify k f l := by
  induction l with
  | nil => simp [listModify]
  | cons p rest ih =>
    obtain ⟨k₀, v₀⟩ := p
    by_cases h₀ : k₀ = k
    · simp [listModify, h₀, hf]
    · simp [listModify, h₀, ih]

theorem mem_of_listGet_eq_some {k : String} {v : α} {l : List (String × α)}
    (h : listGet k l = some v) : (k, v) ∈ l := by
  induction l with
  | nil => simp [listGet] at h
  | cons p rest ih =>
    obtain ⟨k₀, v₀⟩ := p
    by_cases h₀ : k₀ = k
    · subst h₀
      simp [listGet] at h
      simp [h]
    · simp [listGet, h₀] at h
      simp [ih h]

theorem listGet_eq_some_of_mem {k : String} {v : α} {l : List (String × α)}
    (hnd : (l.map Prod.fst).Nodup) (h : (k, v) ∈ l) : listGet k l = some v := by
  induction l with
  | nil => simp at h
  | cons p rest ih =>
    obtain ⟨k₀, v₀⟩ := p
    rw [List.map_cons, List.nodup_cons] at hnd
    rcases List.mem_cons.mp h with h | h
    · rw [Prod.mk.injEq] at h
      obtain ⟨h1, h2⟩ := h
      subst h1; subst h2
      simp [listGet]
    · have hk : k₀ ≠ k := by
        intro hk
        subst hk
        exact hnd.1 (List.mem_map.mpr ⟨(k₀, v), h, rfl⟩)
      simp [listGet, hk, ih hnd.2 h]

theorem keys_listInsert_of_listGet {k : String} {v₀ : α} (v : α) {l : List (String × α)}
    (h : listGet k l = some v₀) :
    (listInsert k v l).map Prod.fst = l.map Prod.fst := by
  induction l with
  | nil => simp [listGet] at h
  | cons p rest ih =>
    obtain ⟨k₀, v'⟩ := p
    by_cases h₀ : k₀ = k
    · subst h₀
      simp [listInsert]
    · simp [listGet, h₀] at h
      simp [listInsert, h₀, ih h]

/-! ### Selector lemmas -/

theorem mem_get_keys_iff (data : XCStringsData) (target_language : String)
    (mode : TranslationMode) (key : String) :
    key ∈ get_keys_needing_translation data target_language mode ↔
      ∃ entry, (key, entry) ∈ data.strings ∧
        keySelected target_language mode key entry = true := by
  unfold get_keys_needing_translation
  rw [List.mem_filterMap]
  constructor
  · rintro ⟨⟨k, e⟩, hmem, hf⟩
    by_cases hsel : keySelected target_language mode k e
    · simp only [hsel, if_true, Option.some.injEq] at hf
      subst hf
      exact ⟨e, hmem, hsel⟩
    · simp [hsel] at hf
  · rintro ⟨entry, hmem, hsel⟩
    exact ⟨(key, entry), hmem, by simp [hsel]⟩

theorem keySelected_eq_true (target_language : String) (mode : TranslationMode)
    (key : String) (entry : LocalizationEntry)
    (h : keySelected target_language mode key entry = true) :
    strIsEmpty (strTrim key) = false ∧ entry.should_translate ≠ some false ∧
      is_marked_no_translate_globally entry = false := by
  by_cases h1 : strIsEmpty (strTrim key)
  · simp [keySelected, h1] at h
  by_cases h2 : entry.should_translate = some false
  · simp [keySelected, h1, h2] at h
  by_cases h3 : is_marked_no_translate_globally entry
  · simp [keySelected, h1, h2, h3] at h
  exact ⟨by simp at h1; exact h1, h2, by simp at h3; exact h3⟩

theorem is_marked_false_iff (entry : LocalizationEntry) :
    is_marked_no_translate_globally entry = false ↔
      entry.should_translate ≠ some false ∧
        ∀ lang loc, (lang, loc) ∈ entry.localizations →
          loc.should_translate ≠ some false := by
  unfold is_marked_no_translate_globally
  by_cases h : entry.should_translate = some false
  · simp [h]
  · simp only [h, if_false, ne_eq, not_false_eq_true, true_and, List.any_eq_false,
      decide_eq_true_eq]
    constructor
    · intro hall lang loc hmem
      exact hall (lang, loc) hmem
    · intro hall p hp
      exact hall p.1 p.2 hp

/-- C1: for every document, target language, and mode, the selector never
returns a key that is empty after trimming whitespace, a key whose entry has
`should_translate == false`, or a key any of whose localizations (for any
language) has `should_translate == false`. -/
theorem selector_never_returns_excluded (data : XCStringsData)
    (target_language : String) (mode : TranslationMode) (key : String)
    (h : key ∈ get_keys_needing_translation data target_language mode) :
    strIsEmpty (strTrim key) = false ∧
      ∃ entry, (key, entry) ∈ data.strings ∧
        entry.should_translate ≠ some false ∧
        ∀ lang loc, (lang, loc) ∈ entry.localizations →
          loc.should_translate ≠ some false := by
  obtain ⟨entry, hmem, hsel⟩ := (mem_get_keys_iff data target_language mode key).mp h
  obtain ⟨h1, h2, h3⟩ := keySelected_eq_true target_language mode key entry hsel
  obtain ⟨_, h4⟩ := (is_marked_false_iff entry).mp h3
  exact ⟨h1, entry, hmem, h2, h4⟩

/-- The entry for key `"hi"` in the example catalog below. -/
def exampleHiEntry : LocalizationEntry :=
  { comment := none
    should_translate := none
    localizations :=
      [("en", { string_unit := some { state := "translated", value := "Hi" }
                should_translate := none })] }

/-- A small example catalog: `"hi"` has only an English value, `"x"` is
globally excluded. -/
def exampleDoc : XCStringsData :=
  { source_language := "en"
    version := "1.0"
    strings :=
      [("hi", exampleHiEntry),
       ("x", { comment := none
               should_translate := some false
               localizations := [] })] }

/-- Witness for C1 at `exampleDoc`, target `"ja"`, mode `Supplement`,
key `"hi"`. -/
theorem selector_never_returns_excluded_witness :
    strIsEmpty (strTrim "hi") = false ∧
      ∃ entry, ("hi", entry) ∈ exampleDoc.strings ∧
        entry.should_translate ≠ some false ∧
        ∀ lang loc, (lang, loc) ∈ entry.localizations →
          loc.should_translate ≠ some false :=
  selector_never_returns_excluded exampleDoc "ja" .Supplement "hi" (by decide)

theorem strIsEmpty_iff (s : String) : strIsEmpty s = true ↔ s = "" := by
  constructor
  · intro h
    apply String.ext
    simpa [strIsEmpty, List.isEmpty_iff] using h
  · intro h
    subst h
    rfl

theorem keySelected_supplement_iff (target_language key : String)
    (entry : LocalizationEntry)
    (hkey : strIsEmpty (strTrim key) = false)
    (hst : entry.should_translate ≠ some false)
    (hmarked : is_marked_no_translate_globally entry = false) :
    (keySelected target_language .Supplement key entry = true ↔
      (listGet target_language entry.localizations = none ∨
        ∃ loc, listGet target_language entry.localizations = some loc ∧
          (loc.string_unit = none ∨
            ∃ u, loc.string_unit = some u ∧ u.value = ""))) := by
  unfold keySelected
  simp only [hkey, hst, hmarked, Bool.false_eq_true, if_false, ite_false]
  cases hl : listGet target_language entry.localizations with
  | none => simp
  | some loc =>
    cases hsu : loc.string_unit with
    | none => simp [hsu]
    | some u => simp [hsu, strIsEmpty_iff]

/-- C2: for every document and target language, a non-excluded key present in
the document is returned by the selector in `Supplement` mode if and only if
the target language's localization is absent, or present with no
`string_unit`, or present with an empty `string_unit` value. -/
theorem supplement_mode_iff (data : XCStringsData) (target_language key : String)
    (entry : LocalizationEntry)
    (hnd : (data.strings.map Prod.fst).Nodup)
    (hmem : (key, entry) ∈ data.strings)
    (hkey : strIsEmpty (strTrim key) = false)
    (hst : entry.should_translate ≠ some false)
    (hloc : ∀ lang loc, (lang, loc) ∈ entry.localizations →
      loc.should_translate ≠ some false) :
    (key ∈ get_keys_needing_translation data target_language .Supplement ↔
      (listGet target_language entry.localizations = none ∨
        ∃ loc, listGet target_language entry.localizations = some loc ∧
          (loc.string_unit = none ∨
            ∃ u, loc.string_unit = some u ∧ u.value = ""))) := by
  have hmarked : is_marked_no_translate_globally entry = false :=
    (is_marked_false_iff entry).mpr ⟨hst, hloc⟩
  rw [mem_get_keys_iff]
  constructor
  · rintro ⟨entry', hmem', hsel⟩
    have he : entry' = entry := by
      have h1 := listGet_eq_some_of_mem hnd hmem'
      have h2 := listGet_eq_some_of_mem hnd hmem
      rw [h1] at h2
      exact Option.some.inj h2
    rw [he] at hsel
    exact (keySelected_supplement_iff target_language key entry hkey hst hmarked).mp hsel
  · intro hrhs
    exact ⟨entry, hmem,
      (keySelected_supplement_iff target_language key entry hkey hst hmarked).mpr hrhs⟩

/-- Witness for C2 at `exampleDoc`, target `"ja"`, key `"hi"`. -/
theorem supplement_mode_iff_witness :
    ("hi" ∈ get_keys_needing_translation exampleDoc "ja" .Supplement ↔
      (listGet "ja" exampleHiEntry.localizations = none ∨
        ∃ loc, listGet "ja" exampleHiEntry.localizations = some loc ∧
          (loc.string_unit = none ∨
            ∃ u, loc.string_unit = some u ∧ u.value = ""))) :=
  supplement_mode_iff exampleDoc "ja" "hi" exampleHiEntry (by decide) (by decide)
    (by decide) (by decide)
    (by
      intro lang loc hm
      simp only [exampleHiEntry, List.mem_singleton, Prod.mk.injEq] at hm
      obtain ⟨h1, h2⟩ := hm
      subst h2
      decide)

/-- C3: for every document and target language, each key selected in
`Supplement` mode is also selected in `Fresh` mode. -/
theorem fresh_superset_of_supplement (data : XCStringsData)
    (target_language key : String)
    (h : key ∈ get_keys_needing_translation data target_language .Supplement) :
    key ∈ get_keys_needing_translation data target_language .Fresh := by
  rw [mem_get_keys_iff] at h ⊢
  obtain ⟨entry, hmem, hsel⟩ := h
  obtain ⟨h1, h2, h3⟩ := keySelected_eq_true target_language .Supplement key entry hsel
  refine ⟨entry, hmem, ?_⟩
  unfold keySelected
  simp [h1, h2, h3]

/-- Witness for C3 at `exampleDoc`, target `"ja"`, key `"hi"`. -/
theorem fresh_superset_of_supplement_witness :
    "hi" ∈ get_keys_needing_translation exampleDoc "ja" .Fresh :=
  fresh_superset_of_supplement exampleDoc "ja" "hi" (by decide)

/-! ### Mutator lemmas -/

theorem add_translation_eq (data : XCStringsData)
    (key target_language translation : String) (entry : LocalizationEntry)
    (h : listGet key data.strings = some entry) :
    add_translation data key target_language translation =
      Except.ok { data with
        strings := listInsert key
          { entry with
              localizations := listModify target_language
                (fun loc => { loc with string_unit := some ⟨"translated", translation⟩ })
                (if (listGet target_language entry.localizations).isSome then
                  entry.localizations
                else listInsert target_language ⟨none, none⟩ entry.localizations) }
          data.strings } := by
  unfold add_translation
  rw [h]

theorem listGet_ensure (lang : String) (l : List (String × Localization)) :
    listGet lang (if (listGet lang l).isSome then l
                  else listInsert lang (⟨none, none⟩ : Localization) l) =
      some ((listGet lang l).getD ⟨none, none⟩) := by
  cases hl : listGet lang l with
  | none => simp [hl, listGet_listInsert_self]
  | some v => simp [hl]

theorem listGet_ensure_ne (lang lang' : String) (h : lang' ≠ lang)
    (l : List (String × Localization)) :
    listGet lang' (if (listGet lang l).isSome then l
                   else listInsert lang (⟨none, none⟩ : Localization) l) =
      listGet lang' l := by
  cases hl : listGet lang l with
  | none => simp [hl, listGet_listInsert_ne lang lang' h]
  | some v => simp [hl]

/-- C4: for a key present in the document, applying `add_translation` twice
with the same key, target language, and text yields a document equal
field-for-field to applying it once (idempotence). -/
theorem add_translation_idempotent (data : XCStringsData)
    (key target_language translation : String) (entry : LocalizationEntry)
    (h : listGet key data.strings = some entry) :
    ∃ d2, add_translation data key target_language translation = Except.ok d2 ∧
      add_translation d2 key target_language translation = Except.ok d2 := by
  set f : Localization → Localization :=
    fun loc => { loc with string_unit := some ⟨"translated", translation⟩ } with hfdef
  set locs : List (String × Localization) :=
    if (listGet target_language entry.localizations).isSome then entry.localizations
    else listInsert target_language ⟨none, none⟩ entry.localizations with hlocs
  set entry2 : LocalizationEntry :=
    { entry with localizations := listModify target_language f locs } with hentry2
  set d2 : XCStringsData :=
    { data with strings := listInsert key entry2 data.strings } with hd2
  have happ1 : add_translation data key target_language translation = Except.ok d2 :=
    add_translation_eq data key target_language translation entry h
  have hget2 : listGet key d2.strings = some entry2 :=
    listGet_listInsert_self key entry2 data.strings
  have hgetloc : listGet target_language entry2.localizations =
      some (f ((listGet target_language entry.localizations).getD ⟨none, none⟩)) := by
    show listGet target_language (listModify target_language f locs) = _
    rw [listGet_listModify_self, hlocs, listGet_ensure]
    rfl
  have hsome : (listGet target_language entry2.localizations).isSome = true := by
    rw [hgetloc]; rfl
  have happ2 := add_translation_eq d2 key target_language translation entry2 hget2
  rw [if_pos hsome] at happ2
  have hmod : listModify target_language f entry2.localizations = entry2.localizations := by
    show listModify target_language f (listModify target_language f locs) = _
    exact listModify_listModify target_language f (fun x => rfl) locs
  rw [hmod] at happ2
  have heta : { entry2 with localizations := entry2.localizations } = entry2 := rfl
  rw [heta] at happ2
  have hins : listInsert key entry2 d2.strings = d2.strings := by
    show listInsert key entry2 (listInsert key entry2 data.strings) = _
    exact listInsert_listInsert key entry2 entry2 data.strings
  rw [hins] at happ2
  exact ⟨d2, happ1, happ2⟩

/-- Witness for C4 at `exampleDoc`, key `"hi"`, target `"ja"`. -/
theorem add_translation_idempotent_witness :
    ∃ d2, add_translation exampleDoc "hi" "ja" "konnichiwa" = Except.ok d2 ∧
      add_translation d2 "hi" "ja" "konnichiwa" = Except.ok d2 :=
  add_translation_idempotent exampleDoc "hi" "ja" "konnichiwa" exampleHiEntry (by decide)

/-- C5: `add_translation` updates exactly the targeted entry's
targeted-language localization: that localization is created if absent (with
`should_translate` unset), its `string_unit` is unconditionally overwritten
with `{state := "translated", value := text}`, its per-language
`should_translate` is untouched, and the entry's comment, the entry's
`should_translate`, all its other localizations, all other entries, and the
document's `source_language` and `version` are unchanged. -/
theorem add_translation_frame (data : XCStringsData)
    (key target_language translation : String) (entry : LocalizationEntry)
    (h : listGet key data.strings = some entry) :
    ∃ d2 entry2 loc2,
      add_translation data key target_language translation = Except.ok d2 ∧
      d2.source_language = data.source_language ∧
      d2.version = data.version ∧
      listGet key d2.strings = some entry2 ∧
      (∀ k', k' ≠ key → listGet k' d2.strings = listGet k' data.strings) ∧
      entry2.comment = entry.comment ∧
      entry2.should_translate = entry.should_translate ∧
      listGet target_language entry2.localizations = some loc2 ∧
      loc2.string_unit = some ⟨"translated", translation⟩ ∧
      loc2.should_translate =
        (listGet target_language entry.localizations).bind
          (fun loc => loc.should_translate) ∧
      (∀ lang', lang' ≠ target_language →
        listGet lang' entry2.localizations = listGet lang' entry.localizations) := by
  set f : Localization → Localization :=
    fun loc => { loc with string_unit := some ⟨"translated", translation⟩ } with hfdef
  set locs : List (String × Localization) :=
    if (listGet target_language entry.localizations).isSome then entry.localizations
    else listInsert target_language ⟨none, none⟩ entry.localizations with hlocs
  set entry2 : LocalizationEntry :=
    { entry with localizations := listModify target_language f locs } with hentry2
  set d2 : XCStringsData :=
    { data with strings := listInsert key entry2 data.strings } with hd2
  refine ⟨d2, entry2,
    f ((listGet target_language entry.localizations).getD ⟨none, none⟩),
    add_translation_eq data key target_language translation entry h,
    rfl, rfl,
    listGet_listInsert_self key entry2 data.strings,
    fun k' hk' => listGet_listInsert_ne key k' hk' entry2 data.strings,
    rfl, rfl, ?_, rfl, ?_, ?_⟩
  · show listGet target_language (listModify target_language f locs) = _
    rw [listGet_listModify_self, hlocs, listGet_ensure]
    rfl
  · cases hl : listGet target_language entry.localizations with
    | none => rfl
    | some loc => rfl
  · intro lang' hlang'
    show listGet lang' (listModify target_language f locs) = _
    rw [listGet_listModify_ne target_language lang' hlang', hlocs,
      listGet_ensure_ne target_language lang' hlang']

/-- Witness for C5 at `exampleDoc`, key `"hi"`, target `"ja"` (the targeted
localization is created fresh, `"en"` is untouched). -/
theorem add_translation_frame_witness :
    ∃ d2 entry2 loc2,
      add_translation exampleDoc "hi" "ja" "konnichiwa" = Except.ok d2 ∧
      d2.source_language = exampleDoc.source_language ∧
      d2.version = exampleDoc.version ∧
      listGet "hi" d2.strings = some entry2 ∧
      (∀ k', k' ≠ "hi" → listGet k' d2.strings = listGet k' exampleDoc.strings) ∧
      entry2.comment = exampleHiEntry.comment ∧
      entry2.should_translate = exampleHiEntry.should_translate ∧
      listGet "ja" entry2.localizations = some loc2 ∧
      loc2.string_unit = some ⟨"translated", "konnichiwa"⟩ ∧
      loc2.should_translate =
        (listGet "ja" exampleHiEntry.localizations).bind
          (fun loc => loc.should_translate) ∧
      (∀ lang', lang' ≠ "ja" →
        listGet lang' entry2.localizations = listGet lang' exampleHiEntry.localizations) :=
  add_translation_frame exampleDoc "hi" "ja" "konnichiwa" exampleHiEntry (by decide)

theorem mark_as_no_translate_eq (data : XCStringsData) (key : String)
    (entry : LocalizationEntry) (h : listGet key data.strings = some entry) :
    mark_as_no_translate data key =
      Except.ok { data with
        strings := listInsert key { entry with should_translate := some false }
          data.strings } := by
  unfold mark_as_no_translate
  rw [h]

/-- C6: for a key present in the document, `mark_as_no_translate` sets that
entry's `should_translate` to `false` and changes nothing else (the entry's
comment and localizations and every other entry are untouched), and
afterwards the selector does not return that key for any target language in
either mode. -/
theorem mark_excluded_effect (data : XCStringsData) (key : String)
    (entry : LocalizationEntry)
    (hnd : (data.strings.map Prod.fst).Nodup)
    (h : listGet key data.strings = some entry) :
    ∃ d2, mark_as_no_translate data key = Except.ok d2 ∧
      d2.source_language = data.source_language ∧
      d2.version = data.version ∧
      listGet key d2.strings = some { entry with should_translate := some false } ∧
      (∀ k', k' ≠ key → listGet k' d2.strings = listGet k' data.strings) ∧
      (∀ target_language mode,
        key ∉ get_keys_needing_translation d2 target_language mode) := by
  set entry2 : LocalizationEntry := { entry with should_translate := some false } with hentry2
  set d2 : XCStringsData :=
    { data with strings := listInsert key entry2 data.strings } with hd2
  have hnd2 : (d2.strings.map Prod.fst).Nodup := by
    show ((listInsert key entry2 data.strings).map Prod.fst).Nodup
    rw [keys_listInsert_of_listGet entry2 h]
    exact hnd
  refine ⟨d2, mark_as_no_translate_eq data key entry h, rfl, rfl,
    listGet_listInsert_self key entry2 data.strings,
    fun k' hk' => listGet_listInsert_ne key k' hk' entry2 data.strings,
    ?_⟩
  intro target_language mode hmem
  obtain ⟨entry', hmem', hsel⟩ := (mem_get_keys_iff d2 target_language mode key).mp hmem
  have he : entry' = entry2 := by
    have h1 := listGet_eq_some_of_mem hnd2 hmem'
    have h2 : listGet key d2.strings = some entry2 :=
      listGet_listInsert_self key entry2 data.strings
    rw [h1] at h2
    exact Option.some.inj h2
  obtain ⟨_, hne, _⟩ := keySelected_eq_true target_language mode key entry' hsel
  rw [he] at hne
  exact hne rfl

/-- Witness for C6 at `exampleDoc`, key `"hi"`. -/
theorem mark_excluded_effect_witness :
    ∃ d2, mark_as_no_translate exampleDoc "hi" = Except.ok d2 ∧
      d2.source_language = exampleDoc.source_language ∧
      d2.version = exampleDoc.version ∧
      listGet "hi" d2.strings =
        some { exampleHiEntry with should_translate := some false } ∧
      (∀ k', k' ≠ "hi" → listGet k' d2.strings = listGet k' exampleDoc.strings) ∧
      (∀ target_language mode,
        "hi" ∉ get_keys_needing_translation d2 target_language mode) :=
  mark_excluded_effect exampleDoc "hi" exampleHiEntry (by decide) (by decide)

/-- C7: `add_translation` and `mark_as_no_translate` fail exactly when the
key is absent from `strings`, and then the error is precisely
`TranslationFailed ("Key not found: <key>")`; on a present key both succeed.
(In this state-passing embedding an error carries no document, so the
pre-state is trivially unchanged on failure.) -/
theorem key_not_found_error (data : XCStringsData)
    (key target_language translation : String) :
    ((add_translation data key target_language translation =
        Except.error (.TranslationFailed ("Key not found: " ++ key))) ↔
      listGet key data.strings = none) ∧
    ((mark_as_no_translate data key =
        Except.error (.TranslationFailed ("Key not found: " ++ key))) ↔
      listGet key data.strings = none) ∧
    (∀ e, add_translation data key target_language translation = Except.error e →
      e = .TranslationFailed ("Key not found: " ++ key)) ∧
    (∀ e, mark_as_no_translate data key = Except.error e →
      e = .TranslationFailed ("Key not found: " ++ key)) := by
  refine ⟨⟨?_, ?_⟩, ⟨?_, ?_⟩, ?_, ?_⟩
  · intro herr
    cases hl : listGet key data.strings with
    | none => rfl
    | some entry =>
      rw [add_translation_eq data key target_language translation entry hl] at herr
      exact Except.noConfusion herr
  · intro hl
    unfold add_translation
    rw [hl]
  · intro herr
    cases hl : listGet key data.strings with
    | none => rfl
    | some entry =>
      rw [mark_as_no_translate_eq data key entry hl] at herr
      exact Except.noConfusion herr
  · intro hl
    unfold mark_as_no_translate
    rw [hl]
  · intro e herr
    cases hl : listGet key data.strings with
    | none =>
      unfold add_translation at herr
      rw [hl] at herr
      exact (Except.error.inj herr).symm
    | some entry =>
      rw [add_translation_eq data key target_language translation entry hl] at herr
      exact Except.noConfusion herr
  · intro e herr
    cases hl : listGet key data.strings with
    | none =>
      unfold mark_as_no_translate at herr
      rw [hl] at herr
      exact (Except.error.inj herr).symm
    | some entry =>
      rw [mark_as_no_translate_eq data key entry hl] at herr
      exact Except.noConfusion herr

/-- Witness for C7 at `exampleDoc` and the absent key `"missing"`. -/
theorem key_not_found_error_witness :
    add_translation exampleDoc "missing" "ja" "x" =
      Except.error (.TranslationFailed ("Key not found: " ++ "missing")) ∧
    mark_as_no_translate exampleDoc "missing" =
      Except.error (.TranslationFailed ("Key not found: " ++ "missing")) :=
  ⟨(key_not_found_error exampleDoc "missing" "ja" "x").1.mpr (by decide),
   (key_not_found_error exampleDoc "missing" "ja" "x").2.1.mpr (by decide)⟩

/-! ### Context-extractor lemmas -/

theorem categorize_usage_isSome (key : String) (meaning : Option String) :
    (categorize_usage key meaning).isSome = true := by
  unfold categorize_usage
  simp only []
  split_ifs <;> rfl

/-- C8: `get_translation_context` returns `none` exactly when the key is
absent from `strings`; on every present key it returns a context whose
`usage_category` is present (categorization always falls back to
`"general"`, so it is total). -/
theorem context_none_iff_absent (data : XCStringsData)
    (key source_language : String) :
    (get_translation_context data key source_language = none ↔
      listGet key data.strings = none) ∧
    (∀ ctx, get_translation_context data key source_language = some ctx →
      ctx.usage_category.isSome = true) := by
  constructor
  · cases hl : listGet key data.strings with
    | none =>
      constructor
      · intro _; rfl
      · intro _
        unfold get_translation_context
        rw [hl]
    | some entry =>
      constructor
      · intro hnone
        unfold get_translation_context at hnone
        rw [hl] at hnone
        exact Option.noConfusion hnone
      · intro hcontra
        exact Option.noConfusion hcontra
  · intro ctx hctx
    unfold get_translation_context at hctx
    cases hl : listGet key data.strings with
    | none =>
      rw [hl] at hctx
      exact Option.noConfusion hctx
    | some entry =>
      rw [hl] at hctx
      rw [← Option.some.inj hctx]
      exact categorize_usage_isSome key (infer_key_meaning key)

/-- Witness for C8 at `exampleDoc`, key `"hi"`, source `"en"`. -/
theorem context_none_iff_absent_witness :
    ∃ ctx, get_translation_context exampleDoc "hi" "en" = some ctx ∧
      ctx.usage_category.isSome = true := by
  cases hctx : get_translation_context exampleDoc "hi" "en" with
  | none =>
    exact absurd ((context_none_iff_absent exampleDoc "hi" "en").1.mp hctx) (by decide)
  | some ctx =>
    exact ⟨ctx, rfl, (context_none_iff_absent exampleDoc "hi" "en").2 ctx hctx⟩

/-- C9: for a key present in the document, the context's `source_text` is the
source-language localization's `string_unit` value when that value is present
and non-blank after trimming, and the key string itself otherwise (in
particular when the source-language localization is absent). -/
theorem context_source_text (data : XCStringsData) (key source_language : String)
    (entry : LocalizationEntry) (h : listGet key data.strings = some entry) :
    ∃ ctx, get_translation_context data key source_language = some ctx ∧
      ctx.source_text =
        match (listGet source_language entry.localizations).bind
            (fun loc => loc.string_unit) with
        | none => key
        | some u => if strIsEmpty (strTrim u.value) then key else u.value := by
  unfold get_translation_context
  rw [h]
  refine ⟨_, rfl, ?_⟩
  show ((((listGet source_language entry.localizations).bind
        (fun loc => loc.string_unit)).map (fun unit => unit.value)).filter
      (fun v => !strIsEmpty (strTrim v))).getD key = _
  cases hsu : (listGet source_language entry.localizations).bind
      (fun loc => loc.string_unit) with
  | none => rfl
  | some u =>
    show ((some u.value).filter (fun v => !strIsEmpty (strTrim v))).getD key = _
    cases hempty : strIsEmpty (strTrim u.value) with
    | true => simp [Option.filter, hempty]
    | false => simp [Option.filter, hempty]

/-- Witness for C9 at `exampleDoc`, key `"hi"`, source `"en"` (the English
value `"Hi"` is present and non-blank). -/
theorem context_source_text_witness :
    ∃ ctx, get_translation_context exampleDoc "hi" "en" = some ctx ∧
      ctx.source_text =
        match (listGet "en" exampleHiEntry.localizations).bind
            (fun loc => loc.string_unit) with
        | none => "hi"
        | some u => if strIsEmpty (strTrim u.value) then "hi" else u.value :=
  context_source_text exampleDoc "hi" "en" exampleHiEntry (by decide)

/-! ### Round-trip of the JSON model -/

theorem parseStringUnit_toJson (u : StringUnit) :
    parseStringUnit (StringUnit.toJson u) = .ok u := rfl

theorem parseLocalization_toJson (l : Localization) :
    parseLocalization (Localization.toJson l) = .ok l := by
  obtain ⟨su, st⟩ := l
  cases su <;> cases st <;> rfl

theorem parseLocMap_map (l : List (String × Localization)) :
    parseLocMap (l.map (fun p => (p.1, Localization.toJson p.2))) = .ok l := by
  induction l with
  | nil => rfl
  | cons p rest ih =>
    obtain ⟨k, loc⟩ := p
    show (parseLocalization (Localization.toJson loc)).bind
        (fun x => (parseLocMap (rest.map (fun p => (p.1, Localization.toJson p.2)))).bind
          (fun r => Except.ok ((k, x) :: r))) = Except.ok ((k, loc) :: rest)
    rw [parseLocalization_toJson]
    show (parseLocMap (rest.map (fun p => (p.1, Localization.toJson p.2)))).bind
        (fun r => Except.ok ((k, loc) :: r)) = Except.ok ((k, loc) :: rest)
    rw [ih]
    rfl

theorem parseEntry_toJson_cons (c : Option String) (st : Option Bool)
    (p : String × Localization) (rest : List (String × Localization)) :
    parseEntry (LocalizationEntry.toJson ⟨c, st, p :: rest⟩) =
      (parseLocMap ((p :: rest).map (fun q => (q.1, Localization.toJson q.2)))).bind
        (fun ls => Except.ok ⟨c, st, ls⟩) := by
  cases c <;> cases st <;> rfl

theorem parseEntry_toJson (e : LocalizationEntry) :
    parseEntry (LocalizationEntry.toJson e) = .ok e := by
  obtain ⟨c, st, locs⟩ := e
  cases locs with
  | nil => cases c <;> cases st <;> rfl
  | cons p rest =>
    rw [parseEntry_toJson_cons, parseLocMap_map]
    rfl

theorem parseStringsMap_map (l : List (String × LocalizationEntry)) :
    parseStringsMap (l.map (fun p => (p.1, LocalizationEntry.toJson p.2))) = .ok l := by
  induction l with
  | nil => rfl
  | cons p rest ih =>
    obtain ⟨k, e⟩ := p
    show (parseEntry (LocalizationEntry.toJson e)).bind
        (fun x => (parseStringsMap (rest.map (fun p => (p.1, LocalizationEntry.toJson p.2)))).bind
          (fun r => Except.ok ((k, x) :: r))) = Except.ok ((k, e) :: rest)
    rw [parseEntry_toJson]
    show (parseStringsMap (rest.map (fun p => (p.1, LocalizationEntry.toJson p.2)))).bind
        (fun r => Except.ok ((k, e) :: r)) = Except.ok ((k, e) :: rest)
    rw [ih]
    rfl

/-- C10: serializing any in-memory document with the derive-attribute-faithful
serializer and deserializing it again returns the identical document, so a
load / save-with-no-mutations / re-load cycle reproduces a structurally equal
document (semantic JSON equality; key order and byte layout are irrelevant
in the value-level model). -/
theorem save_load_roundtrip (d : XCStringsData) :
    parseXCStringsData (XCStringsData.toJson d) = .ok d := by
  obtain ⟨src, ver, strs⟩ := d
  rw [show parseXCStringsData (XCStringsData.toJson ⟨src, ver, strs⟩) =
      (parseStringsMap (strs.map (fun q => (q.1, LocalizationEntry.toJson q.2)))).bind
        (fun s => Except.ok ⟨src, ver, s⟩) from rfl, parseStringsMap_map]
  rfl

end Rosetta
